import Mathlib

/-!
Shallow embedding of `src/distributed/worker_client.py` and the collaborators it
imports, together with proofs about the secession protocol it orchestrates.

The module under study is a generator-based context manager:

  - resolve the timeout (explicit argument, else the configuration default) and
    normalize it to seconds with `parse_timedelta`;
  - resolve the current worker with `get_worker`, then acquire the process-wide
    client with `get_client`;
  - when `separate_thread` is set: `secede()` from the thread pool and post the
    `processing -> long-running` transition for `worker.tasks[thread_state.key]`
    onto the worker's event loop with `add_callback`;
  - yield the client to the caller's block;
  - when `separate_thread` is set: `rejoin()` after the block resumes normally.

A run is embedded as a pure function from an environment (the ambient worker
process state), the two arguments, and the fate of the caller's block, to the
ordered trace of observable effects, the resulting client cache, the yielded
client, and the outcome (the yielded client on normal completion, or the
surfaced error).
-/

namespace DistributedWC

deriving instance DecidableEq for Except

/-- A timeout value as accepted by `worker_client`: either a numeric count of
seconds or a human-readable duration string such as `"10s"`. -/
inductive TdValue where
  | num (seconds : ℚ)
  | str (text : String)
deriving DecidableEq, Repr

/-- Error kinds surfaced by a run of `worker_client`. -/
inductive WCError where
  /-- `parse_timedelta` rejected the timeout string. -/
  | parseError (text : String)
  /-- `get_worker` was invoked off a worker task thread (spec section 4.3 and 7). -/
  | notInTaskContext
  /-- `get_client` could not obtain a client within the timeout. -/
  | connectionTimeout
  /-- `worker.tasks[thread_state.key]` lookup failed. -/
  | keyError (key : String)
  /-- the caller's block raised; the exception propagates unchanged. -/
  | bodyError
deriving DecidableEq, Repr

/-- The scale factor of a duration-unit suffix, in seconds; the empty suffix
means the default unit passed by the caller (`"s"` here). -/
def unitFactor : List Char → Option ℚ
  | [] => some 1
  | ['s'] => some 1
  | ['m', 's'] => some (1 / 1000)
  | ['m'] => some 60
  | ['h'] => some 3600
  | _ => none

/-- The numeric value of a string of decimal digits. -/
def digitsVal (cs : List Char) : ℕ :=
  cs.foldl (fun n c => 10 * n + (c.toNat - 48)) 0

/-- Modelled from the spec: the duration-string grammar accepted by
`parse_timedelta`, which lives in `distributed/utils.py` and is not among the
sources here. Per spec sections 4.3 and 8, a duration string is a number with an
optional unit suffix (for example `"10s"`); anything else is unparseable. The
model covers integer-valued strings, which suffices for the claims. -/
def parseDuration (s : String) : Option ℚ :=
  let digits := s.data.takeWhile Char.isDigit
  let rest := s.data.dropWhile Char.isDigit
  if digits.isEmpty then none
  else (unitFactor rest).map (fun f => (digitsVal digits : ℚ) * f)

/-- Modelled from the spec: `parse_timedelta` lives in `distributed/utils.py`,
which is not among the sources here. Per spec sections 4.3 and 8 it accepts a
numeric count of seconds, returned unchanged, or a duration string, converted to
seconds; an unparseable string fails with a dedicated parse error rather than
silently defaulting. -/
def parse_timedelta : TdValue → Except WCError ℚ
  | .num q => .ok q
  | .str s =>
    match parseDuration s with
    | some q => .ok q
    | none => .error (.parseError s)

/-- A client handle; identity (`id`) models Python object identity, so that
"the identical cached instance" is expressible. -/
structure Client where
  id : ℕ
deriving DecidableEq, Repr

/-- A task record as stored in `worker.tasks`; only the key matters here. -/
structure TaskRecord where
  key : String
deriving DecidableEq, Repr

/-- The slice of a worker visible to `worker_client`: its `tasks` mapping. -/
structure Worker where
  tasks : List (String × TaskRecord)
deriving DecidableEq, Repr

/-- `worker.tasks[k]`: association-list lookup, `none` meaning `KeyError`. -/
def Worker.lookupTask (w : Worker) (k : String) : Option TaskRecord :=
  (w.tasks.find? (fun p => p.1 == k)).map Prod.snd

/-- The ambient worker-process state a run of `worker_client` executes against. -/
structure Env where
  /-- whether the calling thread is executing a worker task; when false,
  `get_worker` fails with `NotInTaskContext` (spec sections 4.3 and 7). -/
  inTaskContext : Bool
  /-- the worker owning the calling thread, when in task context. -/
  worker : Worker
  /-- `thread_state.key`: the key of the task bound to the calling thread. -/
  threadKey : String
  /-- whether a fresh connection can be established within the timeout; when
  false and no cached client exists, `get_client` fails with
  `ConnectionTimeout`. -/
  connectOk : Bool
  /-- the process-wide cached client instance, if one exists. -/
  cachedClient : Option Client
  /-- the identity a freshly created client would have. -/
  freshClient : Client
  /-- `dask.config.get("distributed.comm.timeouts.connect")`. -/
  configDefault : TdValue
deriving Repr

/-- Modelled from the spec: `get_worker` lives in `distributed/worker.py`, not
among the sources here. Per spec section 4.3 it resolves the worker owning the
current thread and fails with `NotInTaskContext` off a worker task thread. -/
def get_worker (env : Env) : Except WCError Worker :=
  if env.inTaskContext then .ok env.worker else .error .notInTaskContext

/-- Modelled from the spec: `get_client` lives in `distributed/worker.py`, not
among the sources here. Per spec section 4.3 it returns the cached process-wide
client when one exists — never opening a second connection — and otherwise
creates, caches and returns a new one within the timeout, failing with
`ConnectionTimeout` when none becomes available. Returns the client together
with the cache after the call. -/
def get_client (env : Env) (timeout : ℚ) : Except WCError (Client × Option Client) :=
  match env.cachedClient with
  | some c => .ok (c, some c)
  | none =>
    if env.connectOk then .ok (env.freshClient, some env.freshClient)
    else .error .connectionTimeout

/-- An observable effect of a run, in program order. `addCallback task st`
records that `worker.transition(task, st)` was posted (not executed) onto the
worker's event loop; `getClient q` records the acquisition attempt with the
normalized timeout `q`; `yieldClient` records that control entered the caller's
block. -/
inductive Event where
  | getWorker
  | getClient (timeout : ℚ)
  | secede
  | addCallback (task : TaskRecord) (targetState : String)
  | yieldClient
  | rejoin
deriving DecidableEq, Repr

/-- Whether the event is `secede`. -/
def Event.isSecede : Event → Bool
  | .secede => true
  | _ => false

/-- Whether the event is `rejoin`. -/
def Event.isRejoin : Event → Bool
  | .rejoin => true
  | _ => false

/-- Whether the event posts a transition onto the worker's loop. -/
def Event.isAddCallback : Event → Bool
  | .addCallback _ _ => true
  | _ => false

/-- Whether the event is a `get_client` acquisition attempt. -/
def Event.isGetClient : Event → Bool
  | .getClient _ => true
  | _ => false

/-- Whether the event is the `get_worker` resolution. -/
def Event.isGetWorker : Event → Bool
  | .getWorker => true
  | _ => false

/-- Whether the event yields the client to the caller's block. -/
def Event.isYield : Event → Bool
  | .yieldClient => true
  | _ => false

/-- The result of one run of `worker_client`: the effect trace, the client
cache after the run, the client yielded to the block (if the scope was ever
entered), and the outcome. -/
structure RunResult where
  events : List Event
  cache : Option Client
  yielded : Option Client
  outcome : Except WCError Client
deriving DecidableEq, Repr

/-- The tail of a `worker_client` run from line 53 of the source on, after the
client was acquired: the `separate_thread` branch (`secede()`, then the eager
`worker.tasks[thread_state.key]` lookup — a missing key raises `KeyError` here,
after the secede and before the yield — then the posting of the
`"long-running"` transition), the yield, and the `rejoin()` that runs only on
normal resumption because the yield is not inside `try`/`finally`. -/
def afterClient (env : Env) (separate_thread bodyRaises : Bool) (secs : ℚ)
    (worker : Worker) (client : Client) (cache : Option Client) : RunResult :=
  if separate_thread then
    match worker.lookupTask env.threadKey with
    | none =>
      ⟨[.getWorker, .getClient secs, .secede], cache, none,
        .error (.keyError env.threadKey)⟩
    | some task =>
      if bodyRaises then
        ⟨[.getWorker, .getClient secs, .secede,
            .addCallback task "long-running", .yieldClient],
          cache, some client, .error .bodyError⟩
      else
        ⟨[.getWorker, .getClient secs, .secede,
            .addCallback task "long-running", .yieldClient, .rejoin],
          cache, some client, .ok client⟩
  else
    if bodyRaises then
      ⟨[.getWorker, .getClient secs, .yieldClient], cache, some client,
        .error .bodyError⟩
    else
      ⟨[.getWorker, .getClient secs, .yieldClient], cache, some client,
        .ok client⟩

/-- The tail of a `worker_client` run from line 52 of the source on, after the
worker was resolved: `get_client(timeout=timeout)`, then `afterClient`. -/
def afterWorker (env : Env) (separate_thread bodyRaises : Bool) (secs : ℚ)
    (worker : Worker) : RunResult :=
  match get_client env secs with
  | .error e => ⟨[.getWorker, .getClient secs], env.cachedClient, none, .error e⟩
  | .ok (client, cache) =>
    afterClient env separate_thread bodyRaises secs worker client cache

/-- Shallow embedding of `worker_client` (`src/distributed/worker_client.py`,
lines 10-62), a generator-based context manager, run against `env` with a
caller block that either completes normally or raises (`bodyRaises`).

Faithful to the source: the configuration default is substituted only when
`timeout` is `None` (line 46); `parse_timedelta(timeout, "s")` normalizes to
seconds before anything else (line 49); `get_worker()` precedes
`get_client(timeout=timeout)` (lines 51-52), which precedes the
`separate_thread` branch (line 53); in that branch `secede()` runs first
(line 54), then the argument `worker.tasks[thread_state.key]` is evaluated
eagerly — a missing key raises `KeyError` here, after the secede and before the
yield — and the transition to `"long-running"` is posted with
`worker.loop.add_callback` (lines 55-57); the client is yielded (line 59); the
`yield` is not wrapped in `try`/`finally`, so `rejoin()` (line 62) runs only
when the generator is resumed normally — an exception thrown into the generator
by a raising block propagates and skips it. -/
def worker_client (env : Env) (timeout : Option TdValue) (separate_thread : Bool)
    (bodyRaises : Bool) : RunResult :=
  match parse_timedelta (timeout.getD env.configDefault) with
  | .error e => ⟨[], env.cachedClient, none, .error e⟩
  | .ok secs =>
    match get_worker env with
    | .error e => ⟨[.getWorker], env.cachedClient, none, .error e⟩
    | .ok worker => afterWorker env separate_thread bodyRaises secs worker

/-- Shallow embedding of `local_client` (`src/distributed/worker_client.py`,
lines 65-67): emits one deprecation warning naming the replacement, then
forwards all arguments unchanged to `worker_client`. The first component is the
list of warning messages emitted by the call. -/
def local_client (env : Env) (timeout : Option TdValue) (separate_thread : Bool)
    (bodyRaises : Bool) : List String × RunResult :=
  (["local_client has moved to worker_client"],
    worker_client env timeout separate_thread bodyRaises)

/-- The pool's accounted-slot count after replaying a trace, starting from `n`
accounted threads: `secede` releases one slot, `rejoin` reclaims one
(spec section 4.1). -/
def accountedAfter (n : ℤ) (es : List Event) : ℤ :=
  n - (es.countP Event.isSecede : ℤ) + (es.countP Event.isRejoin : ℤ)

/-- A concrete healthy environment: in task context, the thread's task key is
present in `worker.tasks`, no cached client yet, connection possible. -/
def envOK : Env where
  inTaskContext := true
  worker := ⟨[("task-1", ⟨"task-1"⟩)]⟩
  threadKey := "task-1"
  connectOk := true
  cachedClient := none
  freshClient := ⟨0⟩
  configDefault := .num 5

/-- A concrete environment whose calling thread is not executing a worker task,
so `get_worker` fails with `NotInTaskContext`. -/
def envNoTask : Env where
  inTaskContext := false
  worker := ⟨[]⟩
  threadKey := "k"
  connectOk := true
  cachedClient := none
  freshClient := ⟨0⟩
  configDefault := .num 5

example :
    (worker_client envOK none true false).events =
      [Event.getWorker, Event.getClient 5, Event.secede,
        Event.addCallback ⟨"task-1"⟩ "long-running", Event.yieldClient,
        Event.rejoin] := by decide

example :
    (worker_client envOK none true true).events =
      [Event.getWorker, Event.getClient 5, Event.secede,
        Event.addCallback ⟨"task-1"⟩ "long-running", Event.yieldClient] := by decide

example : parse_timedelta (.str "10s") = .ok 10 := by
  simp [parse_timedelta, parseDuration, unitFactor, digitsVal]

example : parse_timedelta (.str "garbage") = .error (.parseError "garbage") := by
  simp [parse_timedelta, parseDuration]

/-- Normal form of the scope tail when `separate_thread` is off: no secede, no
transition post, no rejoin; the client is yielded and the block's failure, if
any, propagates. -/
theorem afterClient_false (env : Env) (br : Bool) (secs : ℚ) (w : Worker)
    (c : Client) (cache : Option Client) :
    afterClient env false br secs w c cache =
      ⟨[.getWorker, .getClient secs, .yieldClient], cache, some c,
        if br then .error .bodyError else .ok c⟩ := by
  cases br <;> rfl

/-- Skeleton of `worker_client`: the run is the parse stage, then the worker
stage, then `afterWorker`. -/
theorem worker_client_ok (env : Env) (timeout : Option TdValue) (st br : Bool)
    (q : ℚ) (hq : parse_timedelta (timeout.getD env.configDefault) = .ok q)
    (w : Worker) (hw : get_worker env = .ok w) :
    worker_client env timeout st br = afterWorker env st br q w := by
  unfold worker_client
  rw [hq]
  simp [hw]

/-- A run whose timeout fails to parse stops before any effect. -/
theorem worker_client_parse_error (env : Env) (timeout : Option TdValue)
    (st br : Bool) (e : WCError)
    (he : parse_timedelta (timeout.getD env.configDefault) = .error e) :
    worker_client env timeout st br = ⟨[], env.cachedClient, none, .error e⟩ := by
  unfold worker_client
  rw [he]

/-- A run off a worker task thread stops right after the failed worker
resolution. -/
theorem worker_client_no_worker (env : Env) (timeout : Option TdValue)
    (st br : Bool) (q : ℚ)
    (hq : parse_timedelta (timeout.getD env.configDefault) = .ok q)
    (hw : env.inTaskContext = false) :
    worker_client env timeout st br =
      ⟨[.getWorker], env.cachedClient, none, .error .notInTaskContext⟩ := by
  unfold worker_client
  rw [hq]
  simp [get_worker, hw]

/-- A run whose worker resolution fails stops right after it. -/
theorem worker_client_worker_error (env : Env) (timeout : Option TdValue)
    (st br : Bool) (q : ℚ)
    (hq : parse_timedelta (timeout.getD env.configDefault) = .ok q)
    (e : WCError) (hw : get_worker env = .error e) :
    worker_client env timeout st br =
      ⟨[.getWorker], env.cachedClient, none, .error e⟩ := by
  unfold worker_client
  rw [hq]
  simp [hw]

/-- Every possible effect trace of the tail of a run after worker resolution:
a failed acquisition; a trace that secedes right after acquisition (only with
`separate_thread`); or the non-separate-thread trace that yields right after
acquisition. -/
theorem afterWorker_trace_shapes (env : Env) (st br : Bool) (secs : ℚ)
    (w : Worker) :
    (∃ q, (afterWorker env st br secs w).events =
      [Event.getWorker, Event.getClient q]) ∨
    (st = true ∧ ∃ q rest, (afterWorker env st br secs w).events =
      Event.getWorker :: Event.getClient q :: Event.secede :: rest) ∨
    (st = false ∧ ∃ q, (afterWorker env st br secs w).events =
      [Event.getWorker, Event.getClient q, Event.yieldClient]) := by
  unfold afterWorker
  cases h3 : get_client env secs with
  | error e => exact Or.inl ⟨secs, rfl⟩
  | ok pr =>
    obtain ⟨c, cache⟩ := pr
    dsimp only
    cases st with
    | false =>
      rw [afterClient_false]
      exact Or.inr (Or.inr ⟨by trivial, secs, rfl⟩)
    | true =>
      unfold afterClient
      simp only [if_true]
      cases hL : w.lookupTask env.threadKey with
      | none => exact Or.inr (Or.inl ⟨by trivial, secs, [], rfl⟩)
      | some task =>
        cases br with
        | false =>
          exact Or.inr (Or.inl ⟨by trivial, secs,
            [.addCallback task "long-running", .yieldClient, .rejoin], rfl⟩)
        | true =>
          exact Or.inr (Or.inl ⟨by trivial, secs,
            [.addCallback task "long-running", .yieldClient], rfl⟩)

/-- Every possible effect trace of a run of `worker_client`: nothing (parse
failure); worker resolution only (off a task thread); then the tail shapes of
`afterWorker_trace_shapes`. -/
theorem worker_client_trace_shapes (env : Env) (timeout : Option TdValue)
    (st br : Bool) :
    (worker_client env timeout st br).events = [] ∨
    (worker_client env timeout st br).events = [Event.getWorker] ∨
    (∃ q, (worker_client env timeout st br).events =
      [Event.getWorker, Event.getClient q]) ∨
    (st = true ∧ ∃ q rest, (worker_client env timeout st br).events =
      Event.getWorker :: Event.getClient q :: Event.secede :: rest) ∨
    (st = false ∧ ∃ q, (worker_client env timeout st br).events =
      [Event.getWorker, Event.getClient q, Event.yieldClient]) := by
  cases h1 : parse_timedelta (timeout.getD env.configDefault) with
  | error e =>
    rw [worker_client_parse_error env timeout st br e h1]
    exact Or.inl rfl
  | ok secs =>
    cases h2 : get_worker env with
    | error e =>
      rw [worker_client_worker_error env timeout st br secs h1 e h2]
      exact Or.inr (Or.inl rfl)
    | ok w =>
      rw [worker_client_ok env timeout st br secs h1 w h2]
      rcases afterWorker_trace_shapes env st br secs w with h | h | h
      · exact Or.inr (Or.inr (Or.inl h))
      · exact Or.inr (Or.inr (Or.inr (Or.inl h)))
      · exact Or.inr (Or.inr (Or.inr (Or.inr h)))

/-- C1 (code bug): the spec requires that `rejoin` run on every exit path of a
`separate_thread=true` scope, including when the caller's block raises, so the
accounted-slot count is restored on both paths. The code violates this: the
`yield` at line 59 is not wrapped in `try`/`finally`, so the exception a raising
block throws into the generator propagates past the `rejoin()` on line 62. At a
concrete healthy input: on the raising path the trace has the `secede` but no
`rejoin` and the accounted count ends one short of its starting value, while on
the normal path it is restored. -/
theorem C1_rejoin_skipped_when_block_raises :
    Event.secede ∈ (worker_client envOK none true true).events ∧
    (worker_client envOK none true true).events.countP Event.isRejoin = 0 ∧
    accountedAfter 1 (worker_client envOK none true true).events = 0 ∧
    accountedAfter 1 (worker_client envOK none true false).events = 1 := by
  decide

/-- C2: with `separate_thread=false`, a run never secedes, never rejoins and
never posts a task-state transition — on any path, whether the block raises or
not — and every event it does emit is worker resolution, client acquisition or
the yield itself (timeout resolution is not an effect). -/
theorem C2_frame_without_separate_thread (env : Env) (timeout : Option TdValue)
    (bodyRaises : Bool) :
    (worker_client env timeout false bodyRaises).events.countP
      (fun e => e.isSecede || e.isRejoin || e.isAddCallback) = 0 ∧
    (worker_client env timeout false bodyRaises).events.countP
      (fun e => !(e.isGetWorker || e.isGetClient || e.isYield)) = 0 := by
  cases h1 : parse_timedelta (timeout.getD env.configDefault) with
  | error e =>
    rw [worker_client_parse_error env timeout false bodyRaises e h1]
    exact ⟨rfl, rfl⟩
  | ok secs =>
    cases h2 : get_worker env with
    | error e =>
      rw [worker_client_worker_error env timeout false bodyRaises secs h1 e h2]
      exact ⟨rfl, rfl⟩
    | ok w =>
      rw [worker_client_ok env timeout false bodyRaises secs h1 w h2]
      unfold afterWorker
      cases h3 : get_client env secs with
      | error e => exact ⟨rfl, rfl⟩
      | ok pr =>
        obtain ⟨c, cache⟩ := pr
        dsimp only
        rw [afterClient_false]
        exact ⟨rfl, rfl⟩

/-- C3: when client acquisition fails — `get_worker` fails with
`NotInTaskContext`, or `get_client` fails with `ConnectionTimeout` — the error
is surfaced as the run's outcome, the caller's block is never entered (nothing
is yielded, no yield event), and no secede is performed; moreover, in every run
whatsoever, any secede is preceded by the client acquisition, so acquisition
strictly precedes secession. -/
theorem C3_acquisition_failure_no_scope_no_secede (env : Env)
    (timeout : Option TdValue) (st br : Bool) (q : ℚ)
    (hq : parse_timedelta (timeout.getD env.configDefault) = .ok q)
    (h : get_worker env = .error .notInTaskContext ∨
      (env.inTaskContext = true ∧ get_client env q = .error .connectionTimeout)) :
    ((worker_client env timeout st br).outcome = .error .notInTaskContext ∨
      (worker_client env timeout st br).outcome = .error .connectionTimeout) ∧
    (worker_client env timeout st br).yielded = none ∧
    (worker_client env timeout st br).events.countP
      (fun e => e.isSecede || e.isYield) = 0 ∧
    ∀ (env' : Env) (t' : Option TdValue) (st' br' : Bool),
      (worker_client env' t' st' br').events.countP Event.isSecede = 0 ∨
      ∃ q' rest, (worker_client env' t' st' br').events =
        Event.getWorker :: Event.getClient q' :: Event.secede :: rest := by
  have hord : ∀ (env' : Env) (t' : Option TdValue) (st' br' : Bool),
      (worker_client env' t' st' br').events.countP Event.isSecede = 0 ∨
      ∃ q' rest, (worker_client env' t' st' br').events =
        Event.getWorker :: Event.getClient q' :: Event.secede :: rest := by
    intro env' t' st' br'
    rcases worker_client_trace_shapes env' t' st' br' with h1 | h1 | ⟨q', h1⟩ |
      ⟨_, q', rest, h1⟩ | ⟨_, q', h1⟩
    · rw [h1]; exact Or.inl rfl
    · rw [h1]; exact Or.inl rfl
    · rw [h1]; exact Or.inl rfl
    · exact Or.inr ⟨q', rest, h1⟩
    · rw [h1]; exact Or.inl rfl
  rcases h with hw | ⟨hw, hc⟩
  · rw [worker_client_worker_error env timeout st br q hq _ hw]
    exact ⟨Or.inl rfl, rfl, rfl, hord⟩
  · rw [worker_client_ok env timeout st br q hq env.worker (by simp [get_worker, hw])]
    unfold afterWorker
    rw [hc]
    exact ⟨Or.inr rfl, rfl, rfl, hord⟩

/-- Witness for C3 at a concrete input: off a worker task thread, the run
yields nothing and performs neither secede nor yield. -/
theorem C3_witness :
    (worker_client envNoTask none true false).yielded = none ∧
    (worker_client envNoTask none true false).events.countP
      (fun e => e.isSecede || e.isYield) = 0 :=
  ⟨(C3_acquisition_failure_no_scope_no_secede envNoTask none true false 5 rfl
      (Or.inl rfl)).2.1,
    (C3_acquisition_failure_no_scope_no_secede envNoTask none true false 5 rfl
      (Or.inl rfl)).2.2.1⟩

/-- C4: in a `separate_thread=true` run that reaches the scope, the secede and
the posting of the `processing → long-running` transition onto the worker's
event loop (the `addCallback` event records the non-blocking post, not the
transition's execution) both occur strictly before the client is yielded to the
caller's block — hence before any nested submission the block makes. -/
theorem C4_secede_and_transition_before_yield (env : Env)
    (timeout : Option TdValue) (br : Bool) (q : ℚ)
    (hq : parse_timedelta (timeout.getD env.configDefault) = .ok q)
    (hw : env.inTaskContext = true)
    (c : Client) (cache : Option Client)
    (hc : get_client env q = .ok (c, cache))
    (task : TaskRecord)
    (ht : env.worker.lookupTask env.threadKey = some task) :
    ∃ rest, (worker_client env timeout true br).events =
      [Event.getWorker, Event.getClient q, Event.secede,
        Event.addCallback task "long-running", Event.yieldClient] ++ rest := by
  unfold worker_client
  rw [hq]
  simp [get_worker, hw, afterWorker, hc, afterClient, ht]
  cases br <;> simp

/-- Witness for C4 at a concrete input: the healthy environment's trace begins
with acquisition, secede and the transition post, then the yield. -/
theorem C4_witness :
    parse_timedelta ((none : Option TdValue).getD envOK.configDefault) = .ok 5 ∧
    envOK.inTaskContext = true ∧
    get_client envOK 5 = .ok (⟨0⟩, some ⟨0⟩) ∧
    envOK.worker.lookupTask envOK.threadKey = some ⟨"task-1"⟩ ∧
    ∃ rest, (worker_client envOK none true false).events =
      [Event.getWorker, Event.getClient 5, Event.secede,
        Event.addCallback ⟨"task-1"⟩ "long-running", Event.yieldClient] ++ rest :=
  ⟨rfl, rfl, rfl, rfl,
    C4_secede_and_transition_before_yield envOK none false 5 rfl rfl ⟨0⟩
      (some ⟨0⟩) rfl ⟨"task-1"⟩ rfl⟩

/-- The five literal effect traces the tail of a run can produce, each carrying
the normalized timeout it was entered with. -/
theorem afterWorker_events_cases (env : Env) (st br : Bool) (secs : ℚ)
    (w : Worker) :
    (afterWorker env st br secs w).events =
      [Event.getWorker, Event.getClient secs] ∨
    (afterWorker env st br secs w).events =
      [Event.getWorker, Event.getClient secs, Event.yieldClient] ∨
    (afterWorker env st br secs w).events =
      [Event.getWorker, Event.getClient secs, Event.secede] ∨
    (∃ task, (afterWorker env st br secs w).events =
      [Event.getWorker, Event.getClient secs, Event.secede,
        Event.addCallback task "long-running", Event.yieldClient]) ∨
    (∃ task, (afterWorker env st br secs w).events =
      [Event.getWorker, Event.getClient secs, Event.secede,
        Event.addCallback task "long-running", Event.yieldClient,
        Event.rejoin]) := by
  unfold afterWorker
  cases h3 : get_client env secs with
  | error e => exact Or.inl rfl
  | ok pr =>
    obtain ⟨c, cache⟩ := pr
    dsimp only
    cases st with
    | false =>
      rw [afterClient_false]
      exact Or.inr (Or.inl rfl)
    | true =>
      unfold afterClient
      simp only [if_true]
      cases hL : w.lookupTask env.threadKey with
      | none => exact Or.inr (Or.inr (Or.inl rfl))
      | some task =>
        cases br with
        | true => exact Or.inr (Or.inr (Or.inr (Or.inl ⟨task, rfl⟩)))
        | false => exact Or.inr (Or.inr (Or.inr (Or.inr ⟨task, rfl⟩)))

/-- Any `getClient` event in the tail carries exactly the normalized timeout
the tail was entered with. -/
theorem afterWorker_getClient_eq (env : Env) (st br : Bool) (secs : ℚ)
    (w : Worker) (q' : ℚ)
    (hm : Event.getClient q' ∈ (afterWorker env st br secs w).events) :
    q' = secs := by
  rcases afterWorker_events_cases env st br secs w with h | h | h | ⟨task, h⟩ |
    ⟨task, h⟩ <;> rw [h] at hm <;> simp at hm <;> exact hm

/-- The acquisition attempt of a run is always made with the parsed timeout. -/
theorem worker_client_getClient_eq (env : Env) (timeout : Option TdValue)
    (st br : Bool) (q : ℚ)
    (hq : parse_timedelta (timeout.getD env.configDefault) = .ok q) (q' : ℚ)
    (hm : Event.getClient q' ∈ (worker_client env timeout st br).events) :
    q' = q := by
  cases h2 : get_worker env with
  | error e =>
    rw [worker_client_worker_error env timeout st br q hq e h2] at hm
    simp at hm
  | ok w =>
    rw [worker_client_ok env timeout st br q hq w h2] at hm
    exact afterWorker_getClient_eq env st br q w q' hm

/-- C5: the effective timeout is the explicit argument when given, else the
configuration default, normalized to seconds through `parse_timedelta`: a run
whose timeout fails to parse surfaces exactly that parse error (no silent
default) before any effect, every acquisition uses the parsed value, numeric
timeouts are taken as seconds unchanged, and duration strings such as `"10s"`
and `"250ms"` resolve to their value in seconds while an unparseable string
yields the dedicated parse error carrying the offending text. -/
theorem C5_timeout_resolution_and_parse (env : Env) (timeout : Option TdValue)
    (st br : Bool) :
    (∀ e, parse_timedelta (timeout.getD env.configDefault) = .error e →
      worker_client env timeout st br = ⟨[], env.cachedClient, none, .error e⟩) ∧
    (∀ q q', parse_timedelta (timeout.getD env.configDefault) = .ok q →
      Event.getClient q' ∈ (worker_client env timeout st br).events → q' = q) ∧
    (∀ q : ℚ, parse_timedelta (.num q) = .ok q) ∧
    parse_timedelta (.str "10s") = .ok 10 ∧
    parse_timedelta (.str "250ms") = .ok (1 / 4) ∧
    (∀ s, parseDuration s = none →
      parse_timedelta (.str s) = .error (.parseError s)) ∧
    parseDuration "garbage" = none := by
  refine ⟨?_, ?_, ?_, ?_, ?_, ?_, ?_⟩
  · intro e he
    exact worker_client_parse_error env timeout st br e he
  · intro q q' hq hm
    exact worker_client_getClient_eq env timeout st br q hq q' hm
  · intro q
    rfl
  · simp [parse_timedelta, parseDuration, unitFactor, digitsVal]
  · simp [parse_timedelta, parseDuration, unitFactor, digitsVal]
    norm_num
  · intro s hs
    simp [parse_timedelta, hs]
  · simp [parseDuration]

/-- Witness for C5 at concrete inputs: `"10s"` resolves to ten seconds, and a
run given the unparseable string `"oops"` stops with the dedicated parse
error. -/
theorem C5_witness :
    parse_timedelta (TdValue.str "10s") = .ok 10 ∧
    worker_client envOK (some (.str "oops")) true true =
      ⟨[], envOK.cachedClient, none, .error (.parseError "oops")⟩ :=
  ⟨(C5_timeout_resolution_and_parse envOK none true true).2.2.2.1,
    (C5_timeout_resolution_and_parse envOK (some (.str "oops")) true true).1
      (.parseError "oops") (by simp [parse_timedelta, parseDuration])⟩

/-- C6: the deprecated alias `local_client` forwards all arguments unchanged to
`worker_client` — identical yielded client and identical effects — and emits
exactly one deprecation message per call, whose text names the replacement
`worker_client`. -/
theorem C6_local_client_forwards_and_warns (env : Env)
    (timeout : Option TdValue) (st br : Bool) :
    (local_client env timeout st br).1 =
      ["local_client has moved to worker_client"] ∧
    (local_client env timeout st br).1.length = 1 ∧
    "worker_client".data <:+: "local_client has moved to worker_client".data ∧
    (local_client env timeout st br).2 = worker_client env timeout st br :=
  ⟨rfl, rfl, by decide, rfl⟩

/-- The accessor returns the cached instance unchanged whenever one exists. -/
theorem get_client_cached (env : Env) (c : Client)
    (hc : env.cachedClient = some c) (q : ℚ) :
    get_client env q = .ok (c, some c) := by
  unfold get_client
  rw [hc]

/-- A successful acquisition caches exactly the client it returns, and that
client is the pre-existing cached one, or fresh when none was cached. -/
theorem get_client_ok_shape (env : Env) (q : ℚ) (c : Client)
    (cache : Option Client) (h : get_client env q = .ok (c, cache)) :
    cache = some c ∧
    (env.cachedClient = some c ∨
      (env.cachedClient = none ∧ c = env.freshClient)) := by
  unfold get_client at h
  cases hec : env.cachedClient with
  | some c' =>
    rw [hec] at h
    simp at h
    obtain ⟨hl, hr⟩ := h
    subst hl
    exact ⟨hr.symm, Or.inl rfl⟩
  | none =>
    rw [hec] at h
    cases hoc : env.connectOk with
    | false => rw [hoc] at h; simp at h
    | true =>
      rw [hoc] at h
      simp at h
      obtain ⟨hl, hr⟩ := h
      subst hl
      exact ⟨hr.symm, Or.inr ⟨rfl, rfl⟩⟩

/-- If the scope tail yielded a client, it yielded exactly the acquired one and
left the acquisition's cache in place. -/
theorem afterClient_yielded (env : Env) (st br : Bool) (secs : ℚ) (w : Worker)
    (c' : Client) (cache : Option Client) (c : Client)
    (h : (afterClient env st br secs w c' cache).yielded = some c) :
    c = c' ∧ (afterClient env st br secs w c' cache).cache = cache := by
  unfold afterClient at h ⊢
  cases st with
  | false => cases br <;> simp_all
  | true =>
    simp only [if_true] at h ⊢
    cases hL : w.lookupTask env.threadKey with
    | none => simp_all
    | some task => cases br <;> simp_all

/-- The tail of a run after worker resolution either stops at a failed
acquisition or proceeds into the scope with the acquired-and-cached client. -/
theorem afterWorker_result_cases (env : Env) (st br : Bool) (secs : ℚ)
    (w : Worker) :
    (∃ e, get_client env secs = .error e ∧ afterWorker env st br secs w =
      ⟨[.getWorker, .getClient secs], env.cachedClient, none, .error e⟩) ∨
    (∃ c, get_client env secs = .ok (c, some c) ∧
      afterWorker env st br secs w = afterClient env st br secs w c (some c)) := by
  unfold afterWorker
  cases h3 : get_client env secs with
  | error e => exact Or.inl ⟨e, rfl, rfl⟩
  | ok pr =>
    obtain ⟨c', cache⟩ := pr
    obtain ⟨hsh, _⟩ := get_client_ok_shape env secs c' cache h3
    subst hsh
    exact Or.inr ⟨c', rfl, rfl⟩

/-- If a run yielded a client, the run's final cache holds exactly that client,
and it was either the pre-existing cached instance or — only when nothing was
cached — the freshly created one. -/
theorem worker_client_yielded_cache (env : Env) (timeout : Option TdValue)
    (st br : Bool) (c : Client)
    (h : (worker_client env timeout st br).yielded = some c) :
    (worker_client env timeout st br).cache = some c ∧
    (env.cachedClient = some c ∨
      (env.cachedClient = none ∧ c = env.freshClient)) := by
  cases h1 : parse_timedelta (timeout.getD env.configDefault) with
  | error e =>
    rw [worker_client_parse_error env timeout st br e h1] at h
    simp at h
  | ok secs =>
    cases h2 : get_worker env with
    | error e =>
      rw [worker_client_worker_error env timeout st br secs h1 e h2] at h
      simp at h
    | ok w =>
      rw [worker_client_ok env timeout st br secs h1 w h2] at h ⊢
      rcases afterWorker_result_cases env st br secs w with ⟨e, h3, heq⟩ |
        ⟨c', h3, heq⟩
      · rw [heq] at h
        simp at h
      · rw [heq] at h ⊢
        obtain ⟨hcc, hcache⟩ :=
          afterClient_yielded env st br secs w c' (some c') c h
        subst hcc
        refine ⟨by rw [hcache], ?_⟩
        exact (get_client_ok_shape env secs c (some c) h3).2

/-- C7: the yielded client is the accessor's cached instance: any run that
yields leaves its client cached, the accessor returns a cached instance
unchanged (opening no second connection), and a second run in the same worker
process — its cache being whatever the first run left — yields the identical
client instance. -/
theorem C7_cached_client_identity (env : Env) (t1 t2 : Option TdValue)
    (s1 s2 b1 b2 : Bool) (c1 : Client)
    (h1 : (worker_client env t1 s1 b1).yielded = some c1) :
    (worker_client env t1 s1 b1).cache = some c1 ∧
    (∀ q c, env.cachedClient = some c → get_client env q = .ok (c, some c)) ∧
    ∀ c2, (worker_client
        {env with cachedClient := (worker_client env t1 s1 b1).cache}
        t2 s2 b2).yielded = some c2 → c2 = c1 := by
  obtain ⟨hcache, _⟩ := worker_client_yielded_cache env t1 s1 b1 c1 h1
  refine ⟨hcache, fun q c hc => get_client_cached env c hc q, ?_⟩
  intro c2 h2
  obtain ⟨_, hsrc⟩ := worker_client_yielded_cache _ t2 s2 b2 c2 h2
  rcases hsrc with hs | ⟨hs, _⟩
  · rw [show ({env with cachedClient := (worker_client env t1 s1 b1).cache} :
        Env).cachedClient = (worker_client env t1 s1 b1).cache from rfl,
      hcache] at hs
    injection hs with hs
    exact hs.symm
  · rw [show ({env with cachedClient := (worker_client env t1 s1 b1).cache} :
        Env).cachedClient = (worker_client env t1 s1 b1).cache from rfl,
      hcache] at hs
    cases hs

/-- Witness for C7 at a concrete input: the healthy run yields the fresh client
and leaves exactly it cached. -/
theorem C7_witness :
    (worker_client envOK none true false).yielded = some ⟨0⟩ ∧
    (worker_client envOK none true false).cache = some ⟨0⟩ :=
  ⟨by decide,
    (C7_cached_client_identity envOK none none true true false false ⟨0⟩
      (by decide)).1⟩

/-- C8: `get_worker()` runs unconditionally before the `separate_thread`
branch: even a `separate_thread=false` invocation from a thread not executing a
worker task fails with `NotInTaskContext` right after worker resolution — no
acquisition, nothing yielded — and in every run whatsoever the first event, if
any, is the worker resolution, so it precedes client acquisition and
secession. -/
theorem C8_worker_resolution_precedes_all (env : Env) (timeout : Option TdValue)
    (st br : Bool) (q : ℚ)
    (hq : parse_timedelta (timeout.getD env.configDefault) = .ok q)
    (hw : env.inTaskContext = false) :
    worker_client env timeout st br =
      ⟨[Event.getWorker], env.cachedClient, none, .error .notInTaskContext⟩ ∧
    ∀ (env' : Env) (t' : Option TdValue) (st' br' : Bool),
      (worker_client env' t' st' br').events = [] ∨
      (worker_client env' t' st' br').events.head? = some Event.getWorker := by
  constructor
  · exact worker_client_no_worker env timeout st br q hq hw
  · intro env' t' st' br'
    rcases worker_client_trace_shapes env' t' st' br' with h | h | ⟨q', h⟩ |
      ⟨_, q', rest, h⟩ | ⟨_, q', h⟩ <;> rw [h]
    · exact Or.inl rfl
    · exact Or.inr rfl
    · exact Or.inr rfl
    · exact Or.inr rfl
    · exact Or.inr rfl

/-- Witness for C8 at a concrete input: off a task thread, even with
`separate_thread=false`, the run fails with `NotInTaskContext` after the worker
resolution alone. -/
theorem C8_witness :
    worker_client envNoTask none false false =
      ⟨[Event.getWorker], none, none, .error .notInTaskContext⟩ :=
  (C8_worker_resolution_precedes_all envNoTask none false false 5 rfl rfl).1

/-- C9: in the `separate_thread` branch the task record passed to the posted
transition is the eager lookup `worker.tasks[thread_state.key]` performed on
the seceding thread before the callback is posted; under the precondition that
the thread's key is present, the lookup succeeds — the run never fails with
`KeyError` — and the one posted callback carries exactly that fixed record and
the `"long-running"` target state. -/
theorem C9_eager_task_record_resolution (env : Env) (timeout : Option TdValue)
    (br : Bool) (q : ℚ)
    (hq : parse_timedelta (timeout.getD env.configDefault) = .ok q)
    (hw : env.inTaskContext = true)
    (c : Client) (cache : Option Client)
    (hc : get_client env q = .ok (c, cache))
    (task : TaskRecord)
    (ht : env.worker.lookupTask env.threadKey = some task) :
    (∀ k, (worker_client env timeout true br).outcome ≠ .error (.keyError k)) ∧
    Event.addCallback task "long-running" ∈
      (worker_client env timeout true br).events ∧
    ∀ task' s', Event.addCallback task' s' ∈
        (worker_client env timeout true br).events →
      task' = task ∧ s' = "long-running" := by
  rw [worker_client_ok env timeout true br q hq env.worker
    (by simp [get_worker, hw])]
  unfold afterWorker
  rw [hc]
  dsimp only
  unfold afterClient
  simp only [if_true]
  rw [ht]
  cases br with
  | false =>
    refine ⟨by simp, by simp, ?_⟩
    intro task' s' hm
    simpa using hm
  | true =>
    refine ⟨by simp, by simp, ?_⟩
    intro task' s' hm
    simpa using hm

/-- Witness for C9 at a concrete input: the healthy run posts exactly the
record looked up for the thread's key. -/
theorem C9_witness :
    Event.addCallback ⟨"task-1"⟩ "long-running" ∈
      (worker_client envOK none true false).events :=
  (C9_eager_task_record_resolution envOK none false 5 rfl rfl ⟨0⟩ (some ⟨0⟩)
    rfl ⟨"task-1"⟩ rfl).2.1

/-- C10: the configuration default is substituted only when the timeout
argument is `None`: with any explicit argument the configuration value is
irrelevant to the run, the explicit falsy value `0` reaches the acquisition as
zero seconds rather than the default, and the explicit empty string is handed
to the duration parser as given, failing with its parse error instead of
falling back to the default. -/
theorem C10_default_only_for_none (env : Env) (st br : Bool) (t d : TdValue) :
    worker_client {env with configDefault := d} (some t) st br =
      worker_client env (some t) st br ∧
    (∀ q', Event.getClient q' ∈
      (worker_client env (some (.num 0)) st br).events → q' = 0) ∧
    worker_client env (some (.str "")) st br =
      ⟨[], env.cachedClient, none, .error (.parseError "")⟩ := by
  refine ⟨rfl, ?_, ?_⟩
  · intro q' hm
    exact worker_client_getClient_eq env (some (.num 0)) st br 0 rfl q' hm
  · exact worker_client_parse_error env (some (.str "")) st br _
      (by simp [parse_timedelta, parseDuration])

/-- Witness for C10 at a concrete input: with the explicit empty-string
timeout, the healthy environment's run stops with the parse error for `""`,
regardless of its configuration default. -/
theorem C10_witness :
    worker_client envOK (some (.str "")) true false =
      ⟨[], none, none, .error (.parseError "")⟩ :=
  (C10_default_only_for_none envOK true false (.str "") (.num 7)).2.2

end DistributedWC
